import Mathlib

/-!
Shallow embedding of the record-cleaning core of the smart-sales repository:
the `DataScrubber` operations (src/analytics_project/data_scrubber.py), the
per-domain preparation pipelines (src/analytics_project/data_prep/*.py) and
the warehouse dimension loaders (src/analytics_project/dw/etl_to_dw.py).

A pandas `DataFrame` is modelled as an ordered list of column names together
with a list of rows; each cell holds a semantic value (number, text,
timestamp) or the null marker (NaN/NaT).  Python exceptions are modelled as
explicit error results paired with the state the object holds when the
exception propagates.
-/

namespace SmartSales

/-- A cell value of a tabular Record Set: null (NaN/NaT), a number, a text
value, or a timestamp (encoded as a natural number). -/
inductive Value where
  | null : Value
  | num (q : ℚ) : Value
  | str (s : String) : Value
  | date (d : Nat) : Value
  deriving DecidableEq

/-- A row is the list of cell values, aligned positionally with the column
names of the enclosing data frame. -/
abbrev Row := List Value

/-- Model of a pandas DataFrame: ordered column names plus rows. -/
structure DataFrame where
  cols : List String
  rows : List Row
  deriving DecidableEq

/-- Cell of a row at a column position (out-of-range reads as null). -/
def valAt (r : Row) (j : Nat) : Value := r.getD j Value.null

/-- The column of values named `c` (read positionally via the header). -/
def colValues (df : DataFrame) (c : String) : List Value :=
  df.rows.map (fun r => valAt r (df.cols.indexOf c))

/-- Record Set invariant: every row has exactly one cell per column. -/
def WF (df : DataFrame) : Prop := ∀ r ∈ df.rows, r.length = df.cols.length

/-- Python exceptions that can escape a `DataScrubber` method: the
`ValueError` the class raises for a missing column, the `AttributeError`
pandas raises when `.str` is used on a non-text column, and the `TypeError`
pandas raises when ordering a non-numeric column against a number. -/
inductive ScrubError where
  | columnNotFound (c : String)
  | attributeError
  | typeError
  deriving DecidableEq

/-- True for values that pandas can compare against a numeric bound without
raising: numbers, and NaN (which compares as False). -/
def numCompOk (v : Value) : Bool :=
  match v with
  | Value.num _ => true
  | Value.null => true
  | _ => false

/-- Boolean test `lower ≤ v ≤ upper` as pandas evaluates it elementwise:
false for null (NaN is not ≥ any bound). -/
def inBoundsB (v : Value) (lo hi : ℚ) : Bool :=
  match v with
  | Value.num q => decide (lo ≤ q) && decide (q ≤ hi)
  | _ => false

/-- DataScrubber.filter_column_outliers: keep rows whose value in `c` lies in
`[lo, hi]`; a missing column raises the column-not-found ValueError (state
unchanged), a non-numeric value raises TypeError (state unchanged). -/
def filter_column_outliers (c : String) (lo hi : ℚ) (df : DataFrame) :
    Option ScrubError × DataFrame :=
  if c ∈ df.cols then
    let j := df.cols.indexOf c
    if df.rows.all (fun r => numCompOk (valAt r j)) then
      (none, ⟨df.cols, df.rows.filter (fun r => inBoundsB (valAt r j) lo hi)⟩)
    else (some ScrubError.typeError, df)
  else (some (ScrubError.columnNotFound c), df)

/-- Lowercase one character (ASCII), as pandas `.str.lower()` does per char. -/
def charLower (c : Char) : Char :=
  if 'A' ≤ c ∧ c ≤ 'Z' then Char.ofNat (c.toNat + 32) else c

/-- Uppercase one character (ASCII). -/
def charUpper (c : Char) : Char :=
  if 'a' ≤ c ∧ c ≤ 'z' then Char.ofNat (c.toNat - 32) else c

/-- Whitespace as stripped by `.str.strip()`. -/
def isSpaceChar (c : Char) : Bool := c == ' ' || c == '\t' || c == '\n' || c == '\r'

/-- `str.lower()` on a text value. -/
def strLower (s : String) : String := ⟨s.data.map charLower⟩

/-- `str.upper()` on a text value. -/
def strUpper (s : String) : String := ⟨s.data.map charUpper⟩

/-- `str.strip()`: remove leading and trailing whitespace. -/
def strTrim (s : String) : String :=
  ⟨((s.data.dropWhile isSpaceChar).reverse.dropWhile isSpaceChar).reverse⟩

/-- True when the pandas `.str` accessor works on the column, i.e. the
column's dtype is object because it holds text. -/
def strAccessorOk (col : List Value) : Bool := col.any (fun v => v matches Value.str _)

/-- Elementwise effect of `.str.lower().str.strip()`: lowercase and trim text,
anything non-text becomes null. -/
def lowerTrim (v : Value) : Value :=
  match v with
  | Value.str s => Value.str (strTrim (strLower s))
  | _ => Value.null

/-- Elementwise effect of `.str.upper().str.strip()`. -/
def upperTrim (v : Value) : Value :=
  match v with
  | Value.str s => Value.str (strTrim (strUpper s))
  | _ => Value.null

/-- Replace the cell at position `j` of each row by `f` of that cell. -/
def mapColAt (j : Nat) (f : Value → Value) (df : DataFrame) : DataFrame :=
  ⟨df.cols, df.rows.map (fun r => r.set j (f (valAt r j)))⟩

/-- DataScrubber.format_column_strings_to_lower_and_trim. -/
def format_column_strings_to_lower_and_trim (c : String) (df : DataFrame) :
    Option ScrubError × DataFrame :=
  if c ∈ df.cols then
    let j := df.cols.indexOf c
    if strAccessorOk (df.rows.map (fun r => valAt r j)) then
      (none, mapColAt j lowerTrim df)
    else (some ScrubError.attributeError, df)
  else (some (ScrubError.columnNotFound c), df)

/-- DataScrubber.format_column_strings_to_upper_and_trim. -/
def format_column_strings_to_upper_and_trim (c : String) (df : DataFrame) :
    Option ScrubError × DataFrame :=
  if c ∈ df.cols then
    let j := df.cols.indexOf c
    if strAccessorOk (df.rows.map (fun r => valAt r j)) then
      (none, mapColAt j upperTrim df)
    else (some ScrubError.attributeError, df)
  else (some (ScrubError.columnNotFound c), df)

/-- DataScrubber.handle_missing_data: `drop` runs `dropna()` (drop every row
containing at least one null), otherwise a supplied `fill_value` runs
`fillna` (replace every null); with neither, the frame is returned as is. -/
def handle_missing_data (drop : Bool) (fill : Option Value) (df : DataFrame) :
    DataFrame :=
  if drop then
    ⟨df.cols, df.rows.filter (fun r => !(r.any (fun v => v == Value.null)))⟩
  else
    match fill with
    | some v => ⟨df.cols, df.rows.map (List.map (fun x => if x == Value.null then v else x))⟩
    | none => df

/-- Read a nonempty all-digit chunk as a natural number. -/
def digitChunk (cs : List Char) : Option Nat :=
  if cs ≠ [] ∧ cs.all (fun c => c.isDigit) then
    some (cs.foldl (fun n c => n * 10 + (c.toNat - 48)) 0)
  else none

/-- Split a character list on the dash separator of ISO dates. -/
def splitDash : List Char → List (List Char)
  | [] => [[]]
  | c :: cs =>
      match splitDash cs with
      | [] => [[c]]
      | g :: gs => if c = '-' then [] :: g :: gs else (c :: g) :: gs

/-- Abstract model of the external datetime parser used through
`pd.to_datetime(..., format="mixed")`: it recognises ISO `YYYY-MM-DD` text
and yields the encoded day; any other text is unparseable. -/
def parseIsoDate (s : String) : Option Nat :=
  match (splitDash s.data).map digitChunk with
  | [some y, some m, some d] =>
      if 1 ≤ m ∧ m ≤ 12 ∧ 1 ≤ d ∧ d ≤ 31 then some (y * 10000 + m * 100 + d)
      else none
  | _ => none

/-- Elementwise effect of `pd.to_datetime(column, errors="coerce")`: a value
that cannot be parsed as a date becomes null instead of raising. -/
def toDatetimeCoerce (v : Value) : Value :=
  match v with
  | Value.str s =>
      match parseIsoDate s with
      | some d => Value.date d
      | none => Value.null
  | Value.date d => Value.date d
  | _ => Value.null

/-- Assignment `df[name] = vals`: overwrite the column if it exists,
otherwise append it on the right. -/
def setCol (name : String) (vals : List Value) (df : DataFrame) : DataFrame :=
  if name ∈ df.cols then
    let j := df.cols.indexOf name
    ⟨df.cols, (df.rows.zip vals).map (fun p => p.1.set j p.2)⟩
  else
    ⟨df.cols ++ [name], (df.rows.zip vals).map (fun p => p.1 ++ [p.2])⟩

/-- DataScrubber.parse_dates_to_add_standard_datetime: coerce-parse the
source column into the fixed-name StandardDateTime column; a missing source
column raises the column-not-found ValueError. -/
def parse_dates_to_add_standard_datetime (c : String) (df : DataFrame) :
    Option ScrubError × DataFrame :=
  if c ∈ df.cols then
    (none, setCol "StandardDateTime" ((colValues df c).map toDatetimeCoerce) df)
  else (some (ScrubError.columnNotFound c), df)

/-- Generic keep-first deduplication (pandas `drop_duplicates` with
`keep="first"`), deduplicating by the key `key` of each element, carrying the
set of keys already seen. -/
def keepFirstByAux {α β : Type} [DecidableEq β] (key : α → β) :
    List β → List α → List α
  | _, [] => []
  | seen, r :: rs =>
      if key r ∈ seen then keepFirstByAux key (key r :: seen) rs
      else r :: keepFirstByAux key (key r :: seen) rs

/-- pandas `drop_duplicates(keep="first")` on a list, by key. -/
def dropDuplicatesBy {α β : Type} [DecidableEq β] (key : α → β) (l : List α) :
    List α :=
  keepFirstByAux key [] l

/-- Specification form of keep-first deduplication, following the spec's
words: position `i` survives exactly when no earlier position holds the same
key. -/
def keepFirstSpecBy {α β : Type} [DecidableEq β] (key : α → β) (l : List α) :
    List α :=
  (List.range l.length).filterMap (fun i =>
    (l[i]?).bind (fun r =>
      if (l.take i).any (fun x => key x == key r) then none else some r))

/-- DataScrubber.remove_duplicate_records: `df.drop_duplicates()`, exact
whole-row duplicates removed keeping the first occurrence. -/
def remove_duplicate_records (df : DataFrame) : DataFrame :=
  ⟨df.cols, dropDuplicatesBy id df.rows⟩

/-- DataScrubber.rename_columns: every old name is checked for existence
first (raising the column-not-found ValueError with the frame untouched),
then all renames are applied. -/
def rename_columns (m : List (String × String)) (df : DataFrame) :
    Option ScrubError × DataFrame :=
  match m.find? (fun p => decide (p.1 ∉ df.cols)) with
  | some p => (some (ScrubError.columnNotFound p.1), df)
  | none =>
      (none, ⟨df.cols.map (fun h => (((m.find? (fun q => q.1 == h)).map Prod.snd).getD h)), df.rows⟩)

/-- DataScrubber.reorder_columns: every requested name is checked first
(raising the column-not-found ValueError with the frame untouched), then the
frame is restricted and reordered to the given list. -/
def reorder_columns (cs : List String) (df : DataFrame) :
    Option ScrubError × DataFrame :=
  match cs.find? (fun c => decide (c ∉ df.cols)) with
  | some c => (some (ScrubError.columnNotFound c), df)
  | none =>
      (none, ⟨cs, df.rows.map (fun r => cs.map (fun c => valAt r (df.cols.indexOf c)))⟩)

/-- Sort a list of rationals ascending (insertion sort), as the quantile
computation needs the order statistics. -/
def insertLe (x : ℚ) : List ℚ → List ℚ
  | [] => [x]
  | y :: ys => if x ≤ y then x :: y :: ys else y :: insertLe x ys

/-- Ascending sort of a list of rationals. -/
def sortLe (l : List ℚ) : List ℚ := l.foldr insertLe []

/-- pandas `Series.quantile(q)` with the default linear interpolation over
the non-null values: position `q * (n - 1)` interpolated between the two
neighbouring order statistics; `none` when there are no values (pandas NaN). -/
def quantileLinear (vals : List ℚ) (q : ℚ) : Option ℚ :=
  match sortLe vals with
  | [] => none
  | x :: xs =>
      let s := x :: xs
      let pos : ℚ := q * ((s.length : ℚ) - 1)
      let i : Nat := (⌊pos⌋).toNat
      let frac : ℚ := pos - (i : ℚ)
      let a := s.getD i x
      let b := s.getD (i + 1) a
      some (a + frac * (b - a))

/-- The non-null numeric values of column position `j` (pandas quantile
skips NaN). -/
def columnNums (df : DataFrame) (j : Nat) : List ℚ :=
  (df.rows.map (fun r => valAt r j)).filterMap (fun v =>
    match v with
    | Value.num q => some q
    | _ => none)

/-- One iteration of the `for col in numeric_cols` loop of the domain
pipelines' `remove_outliers`: compute Q1, Q3 and IQR over the column's
current values; when `iqr == 0` the column is skipped; otherwise rows are
filtered to `[q1 - 1.5*iqr, q3 + 1.5*iqr]`.  When the column has no values
both quantiles are NaN, `iqr == 0` is false, and the NaN bounds reject every
row. -/
def iqrPass (df : DataFrame) (j : Nat) : DataFrame :=
  match quantileLinear (columnNums df j) (1/4), quantileLinear (columnNums df j) (3/4) with
  | some q1, some q3 =>
      let iqr := q3 - q1
      if iqr = 0 then df
      else
        let lo := q1 - 3/2 * iqr
        let hi := q3 + 3/2 * iqr
        ⟨df.cols, df.rows.filter (fun r => inBoundsB (valAt r j) lo hi)⟩
  | _, _ => ⟨df.cols, []⟩

/-- True when the column at position `j` has numeric dtype
(`select_dtypes(include="number")`): every value is a number or NaN. -/
def numericDtypeAt (df : DataFrame) (j : Nat) : Bool :=
  df.rows.all (fun r => numCompOk (valAt r j))

/-- The column positions of numeric dtype, in header order. -/
def numericIdxList (df : DataFrame) : List Nat :=
  (List.range df.cols.length).filter (fun j => numericDtypeAt df j)

/-- prepare_customers_data.remove_outliers: IQR trimming over every numeric
column, in header order, on the shrinking frame. -/
def customers_remove_outliers (df : DataFrame) : DataFrame :=
  let ncols := numericIdxList df
  if ncols.isEmpty then df else ncols.foldl iqrPass df

/-- prepare_products_data.remove_outliers: IQR trimming over every numeric
column, in header order, on the shrinking frame. -/
def products_remove_outliers (df : DataFrame) : DataFrame :=
  let ncols := numericIdxList df
  if ncols.isEmpty then df else ncols.foldl iqrPass df

/-- prepare_sales_data.remove_outliers: IQR trimming over every numeric
column, in header order, on the shrinking frame. -/
def sales_remove_outliers (df : DataFrame) : DataFrame :=
  let ncols := numericIdxList df
  if ncols.isEmpty then df else ncols.foldl iqrPass df

/-- Modelled from the spec: convention (a) of the spec's Outlier Policy,
fixed-quantile trimming for one column — drop values below the 1st
percentile or above the 99th percentile. -/
def quantilePass (df : DataFrame) (j : Nat) : DataFrame :=
  match quantileLinear (columnNums df j) (1/100), quantileLinear (columnNums df j) (99/100) with
  | some p1, some p99 =>
      ⟨df.cols, df.rows.filter (fun r => inBoundsB (valAt r j) p1 p99)⟩
  | _, _ => df

/-- Modelled from the spec: fixed-quantile trimming applied per numeric
column independently, in header order. -/
def specQuantileTrim (df : DataFrame) : DataFrame :=
  (numericIdxList df).foldl quantilePass df

/-- Errors raised while loading a warehouse table: the pandas KeyError from
selecting a missing column, the sqlite3 IntegrityError from a PRIMARY KEY
rowid collision, and the sqlite3 datatype-mismatch error from binding a
value with no lossless integer conversion to an INTEGER PRIMARY KEY. -/
inductive DwError where
  | keyError
  | integrityError
  | datatypeMismatch
  deriving DecidableEq

/-- etl_to_dw: `df.columns = df.columns.str.strip().str.lower()`. -/
def normalizeHeaders (df : DataFrame) : DataFrame :=
  ⟨df.cols.map (fun h => strLower (strTrim h)), df.rows⟩

/-- etl_to_dw: `df.rename(columns=mapping)` — headers found in the mapping
are replaced, all others stay. -/
def renameHeaderMap (m : List (String × String)) (df : DataFrame) : DataFrame :=
  ⟨df.cols.map (fun h => (((m.find? (fun p => p.1 == h)).map Prod.snd).getD h)), df.rows⟩

/-- etl_to_dw: `df = df[names]` — restrict and reorder to the warehouse
columns, raising KeyError when one is missing. -/
def selectColumns (names : List String) (df : DataFrame) : Except DwError DataFrame :=
  if names.all (fun c => decide (c ∈ df.cols)) then
    Except.ok ⟨names, df.rows.map (fun r => names.map (fun c => valAt r (df.cols.indexOf c)))⟩
  else Except.error DwError.keyError

/-- The rename mapping of load_dim_customer. -/
def customerRenameMap : List (String × String) :=
  [("customerid", "customer_id"), ("name", "name"), ("region", "region"),
   ("joindate", "join_date")]

/-- The rename mapping of load_dim_product. -/
def productRenameMap : List (String × String) :=
  [("productid", "product_id"), ("productname", "product_name"),
   ("category", "category"), ("unitprice", "unit_price")]

/-- `df.duplicated(subset=[key]).any()`: some key at position `j` occurs in
more than one row. -/
def hasDupKeysAt (j : Nat) : List Row → Bool
  | [] => false
  | r :: rs => rs.any (fun s => valAt s j == valAt r j) || hasDupKeysAt j rs

/-- Lossless conversion of text to an integer rowid, as SQLite INTEGER
affinity performs for a well-formed integer literal (optional minus sign
followed by digits); any other text does not convert. -/
def strToInt? (s : String) : Option Int :=
  match s.data with
  | '-' :: cs => (digitChunk cs).map (fun n => -(n : Int))
  | cs => (digitChunk cs).map (fun n => (n : Int))

/-- The rowid a bound value yields in an INTEGER PRIMARY KEY column:
`none` is the sqlite3 datatype mismatch, `some none` is a NULL key
requesting rowid auto-assignment, `some (some n)` an explicit rowid.
Integers (rationals with denominator 1, covering the lossless float case)
and integer-literal text convert; other text, non-integral numbers and
timestamps do not. -/
def toRowid (v : Value) : Option (Option Int) :=
  match v with
  | Value.null => some none
  | Value.num q => if q.den = 1 then some (some q.num) else none
  | Value.str s => (strToInt? s).map (fun n => some n)
  | Value.date _ => none

/-- The rowid SQLite auto-assigns for a NULL INTEGER PRIMARY KEY: one
larger than the largest rowid in use, 1 for an empty table. -/
def newRowid (used : List Int) : Int :=
  (match used with
   | [] => 0
   | x :: xs => xs.foldl max x) + 1

/-- Append rows into a freshly created dimension table whose INTEGER
PRIMARY KEY is column `j`, as sqlite3 executes the inserts: a NULL key is
auto-assigned the next rowid (which the key column then stores), an
explicit rowid already in use raises IntegrityError, and a value with no
lossless integer conversion raises the datatype-mismatch error.  Converted
keys are stored as integers. -/
def insertRowsPK (j : Nat) : List Int → List Row → Except DwError (List Row)
  | _, [] => Except.ok []
  | used, r :: rs =>
      match toRowid (valAt r j) with
      | none => Except.error DwError.datatypeMismatch
      | some none =>
          (insertRowsPK j (newRowid used :: used) rs).map
            (fun t => r.set j (Value.num ((newRowid used : ℤ) : ℚ)) :: t)
      | some (some n) =>
          if n ∈ used then Except.error DwError.integrityError
          else (insertRowsPK j (n :: used) rs).map
            (fun t => r.set j (Value.num ((n : ℤ) : ℚ)) :: t)

/-- The dataframe preparation of load_dim_customer before the dedup/insert:
normalize headers, rename to canonical names, keep the warehouse columns. -/
def prepCustomer (df : DataFrame) : Except DwError DataFrame :=
  selectColumns ["customer_id", "name", "region", "join_date"]
    (renameHeaderMap customerRenameMap (normalizeHeaders df))

/-- The dataframe preparation of load_dim_product before the insert. -/
def prepProduct (df : DataFrame) : Except DwError DataFrame :=
  selectColumns ["product_id", "product_name", "category", "unit_price"]
    (renameHeaderMap productRenameMap (normalizeHeaders df))

/-- etl_to_dw.load_dim_customer into a freshly created empty dim_customer:
prepare the frame, drop duplicate customer_id rows (keep first) when any
exist, then append through the PRIMARY KEY. -/
def load_dim_customer_table (df : DataFrame) : Except DwError (List Row) :=
  (prepCustomer df).bind (fun d =>
    insertRowsPK 0 []
      (if hasDupKeysAt 0 d.rows then dropDuplicatesBy (fun r => valAt r 0) d.rows
       else d.rows))

/-- etl_to_dw.load_dim_product into a freshly created empty dim_product:
prepare the frame and append through the PRIMARY KEY — no dedup step. -/
def load_dim_product_table (df : DataFrame) : Except DwError (List Row) :=
  (prepProduct df).bind (fun d => insertRowsPK 0 [] d.rows)

/-- Concrete prepared customers frame with customer ids 1, 1, 2 and
differing other fields (the spec's dimension-load example). -/
def dfCust112 : DataFrame :=
  ⟨["CustomerID", "Name", "Region", "JoinDate"],
   [[Value.num 1, Value.str "A", Value.str "r1", Value.str "2020-01-01"],
    [Value.num 1, Value.str "B", Value.str "r2", Value.str "2020-01-02"],
    [Value.num 2, Value.str "C", Value.str "r1", Value.str "2020-01-03"]]⟩

/-- Concrete prepared products frame with a duplicated product id. -/
def dfProdDup : DataFrame :=
  ⟨["ProductID", "ProductName", "Category", "UnitPrice"],
   [[Value.num 1, Value.str "P", Value.str "c", Value.num 5],
    [Value.num 1, Value.str "Q", Value.str "c", Value.num 6]]⟩

/-- The customers frame as prepared by load_dim_customer before dedup. -/
def dfCust112Prep : DataFrame :=
  ⟨["customer_id", "name", "region", "join_date"], dfCust112.rows⟩

/-- The products frame as prepared by load_dim_product before insert. -/
def dfProdDupPrep : DataFrame :=
  ⟨["product_id", "product_name", "category", "unit_price"], dfProdDup.rows⟩

/-- Concrete frame with one numeric column holding 1, 2, 3, 4, 100: the two
outlier conventions disagree on it. -/
def dfNum5 : DataFrame :=
  ⟨["x"], [[Value.num 1], [Value.num 2], [Value.num 3], [Value.num 4], [Value.num 100]]⟩

/-- Concrete frame with a partially-null row and a fully-null row. -/
def dfMiss : DataFrame :=
  ⟨["a", "b"], [[Value.num 1, Value.null], [Value.null, Value.null]]⟩

/-- Concrete frame whose numeric column is used by the IQR-pass witness. -/
def dfIqrW : DataFrame :=
  ⟨["y"], [[Value.num 1], [Value.num 2], [Value.num 3], [Value.num 4], [Value.num 100]]⟩

/-- Concrete frame whose only column is itself named StandardDateTime. -/
def dfSdtSelf : DataFrame := ⟨["StandardDateTime"], [[Value.str "not-a-date"]]⟩

/-- Concrete frame with a text date column, the spec's parsing example. -/
def dfDates : DataFrame :=
  ⟨["order_date"], [[Value.str "2024-01-01"], [Value.str "not-a-date"]]⟩

/-- Concrete one-column frame used to exercise missing-column failures. -/
def dfOneCol : DataFrame := ⟨["a"], [[Value.num 1]]⟩

/-- Concrete frame whose column a holds a text value. -/
def dfTextCell : DataFrame := ⟨["a"], [[Value.str "x"]]⟩

/-- Concrete frame with numbers, a null and an out-of-bounds number in
column a. -/
def dfFilterW : DataFrame :=
  ⟨["a", "b"],
   [[Value.num 5, Value.str "k"], [Value.null, Value.num 2], [Value.num 50, Value.num 3]]⟩

/-- Concrete frame with a text column and a numeric column. -/
def dfNameAge : DataFrame :=
  ⟨["name", "age"], [[Value.str " A ", Value.num 25], [Value.str "B", Value.num 30]]⟩

/-!
Helper lemmas about the generic keep-first deduplication.
-/

theorem keepFirstByAux_eq {α β : Type} [DecidableEq β] (key : α → β) (l : List α) :
    ∀ seen : List β, keepFirstByAux key seen l =
      (List.range l.length).filterMap (fun i =>
        (l[i]?).bind (fun r =>
          if key r ∈ seen ∨ ((l.take i).any (fun x => key x == key r)) = true then none
          else some r)) := by
  induction l with
  | nil => intro seen; rfl
  | cons r rs ih =>
      intro seen
      have hfun : ∀ i : Nat,
          (((r :: rs)[i + 1]?).bind (fun x =>
            if key x ∈ seen ∨ (((r :: rs).take (i + 1)).any (fun y => key y == key x)) = true
            then none else some x))
          = ((rs[i]?).bind (fun x =>
            if key x ∈ (key r :: seen) ∨ ((rs.take i).any (fun y => key y == key x)) = true
            then none else some x)) := by
        intro i
        rw [List.getElem?_cons_succ, List.take_succ_cons]
        cases h : rs[i]? with
        | none => rfl
        | some x =>
            simp only [Option.some_bind]
            refine if_congr ?_ rfl rfl
            simp only [List.any_cons, Bool.or_eq_true, beq_iff_eq, List.mem_cons]
            constructor
            · rintro (h1 | h1 | h1)
              · exact Or.inl (Or.inr h1)
              · exact Or.inl (Or.inl h1.symm)
              · exact Or.inr h1
            · rintro (⟨h1 | h1⟩ | h1)
              · exact Or.inr (Or.inl h1.symm)
              · exact Or.inl h1
              · exact Or.inr (Or.inr h1)
      rw [List.length_cons, List.range_succ_eq_map, List.filterMap_cons]
      have hmap : (List.filterMap (fun i =>
          ((r :: rs)[i]?).bind (fun x =>
            if key x ∈ seen ∨ (((r :: rs).take i).any (fun y => key y == key x)) = true
            then none else some x)) (List.map Nat.succ (List.range rs.length)))
          = List.filterMap (fun i =>
            (rs[i]?).bind (fun x =>
              if key x ∈ (key r :: seen) ∨ ((rs.take i).any (fun y => key y == key x)) = true
              then none else some x)) (List.range rs.length) := by
        rw [List.filterMap_map]
        exact List.filterMap_congr (fun i _ => hfun i)
      simp only [List.getElem?_cons_zero, Option.some_bind, List.take_zero,
        List.any_nil, Bool.false_eq_true, or_false] at *
      by_cases hmem : key r ∈ seen
      · rw [if_pos hmem]
        show keepFirstByAux key seen (r :: rs) = _
        rw [keepFirstByAux, if_pos hmem, ih (key r :: seen), hmap]
      · rw [if_neg hmem]
        show keepFirstByAux key seen (r :: rs) = _
        rw [keepFirstByAux, if_neg hmem, ih (key r :: seen), hmap]

theorem mem_keepFirstByAux {α β : Type} [DecidableEq β] (key : α → β)
    {x : α} : ∀ (l : List α) (seen : List β),
    x ∈ keepFirstByAux key seen l → x ∈ l ∧ key x ∉ seen := by
  intro l
  induction l with
  | nil => intro seen h; exact absurd h (List.not_mem_nil x)
  | cons r rs ih =>
      intro seen h
      rw [keepFirstByAux] at h
      by_cases hmem : key r ∈ seen
      · rw [if_pos hmem] at h
        obtain ⟨hx, hk⟩ := ih (key r :: seen) h
        exact ⟨List.mem_cons_of_mem _ hx, fun hc => hk (List.mem_cons_of_mem _ hc)⟩
      · rw [if_neg hmem] at h
        rcases List.mem_cons.mp h with rfl | h'
        · exact ⟨List.mem_cons_self _ _, hmem⟩
        · obtain ⟨hx, hk⟩ := ih (key r :: seen) h'
          exact ⟨List.mem_cons_of_mem _ hx, fun hc => hk (List.mem_cons_of_mem _ hc)⟩

theorem pairwise_keepFirstByAux {α β : Type} [DecidableEq β] (key : α → β) :
    ∀ (l : List α) (seen : List β),
    List.Pairwise (fun a b => key a ≠ key b) (keepFirstByAux key seen l) := by
  intro l
  induction l with
  | nil => intro seen; exact List.Pairwise.nil
  | cons r rs ih =>
      intro seen
      rw [keepFirstByAux]
      by_cases hmem : key r ∈ seen
      · rw [if_pos hmem]; exact ih (key r :: seen)
      · rw [if_neg hmem]
        refine List.Pairwise.cons ?_ (ih (key r :: seen))
        intro b hb
        have := (mem_keepFirstByAux key rs (key r :: seen) hb).2
        exact fun hc => this (hc ▸ List.mem_cons_self _ _)

theorem keepFirstByAux_of_pairwise {α β : Type} [DecidableEq β] (key : α → β) :
    ∀ (l : List α) (seen : List β),
    (∀ x ∈ l, key x ∉ seen) →
    List.Pairwise (fun a b => key a ≠ key b) l →
    keepFirstByAux key seen l = l := by
  intro l
  induction l with
  | nil => intro seen _ _; rfl
  | cons r rs ih =>
      intro seen hs hp
      rw [keepFirstByAux, if_neg (hs r (List.mem_cons_self _ _))]
      refine congrArg (r :: ·) (ih (key r :: seen) ?_ (List.Pairwise.sublist (List.sublist_cons_self r rs) hp))
      intro x hx
      rw [List.mem_cons]
      rintro (hc | hc)
      · exact (List.pairwise_cons.mp hp).1 x hx hc.symm
      · exact hs x (List.mem_cons_of_mem _ hx) hc

theorem keepFirstByAux_sublist {α β : Type} [DecidableEq β] (key : α → β) :
    ∀ (l : List α) (seen : List β), (keepFirstByAux key seen l).Sublist l := by
  intro l
  induction l with
  | nil => intro seen; exact List.Sublist.refl []
  | cons r rs ih =>
      intro seen
      rw [keepFirstByAux]
      by_cases hmem : key r ∈ seen
      · rw [if_pos hmem]; exact (ih (key r :: seen)).cons r
      · rw [if_neg hmem]; exact (ih (key r :: seen)).cons₂ r

theorem dropDuplicatesBy_eq_spec {α β : Type} [DecidableEq β] (key : α → β)
    (l : List α) : dropDuplicatesBy key l = keepFirstSpecBy key l := by
  rw [dropDuplicatesBy, keepFirstByAux_eq, keepFirstSpecBy]
  refine List.filterMap_congr (fun i _ => ?_)
  cases h : l[i]? with
  | none => rfl
  | some x =>
      simp only [Option.some_bind]
      refine if_congr ?_ rfl rfl
      simp only [List.not_mem_nil, false_or]

theorem dropDuplicatesBy_idem {α β : Type} [DecidableEq β] (key : α → β)
    (l : List α) :
    dropDuplicatesBy key (dropDuplicatesBy key l) = dropDuplicatesBy key l := by
  rw [dropDuplicatesBy, dropDuplicatesBy]
  exact keepFirstByAux_of_pairwise key _ []
    (fun x _ => List.not_mem_nil (key x))
    (pairwise_keepFirstByAux key l [])

theorem pairwise_of_not_hasDupKeysAt (j : Nat) :
    ∀ rows : List Row, hasDupKeysAt j rows = false →
    List.Pairwise (fun a b => valAt a j ≠ valAt b j) rows := by
  intro rows
  induction rows with
  | nil => intro _; exact List.Pairwise.nil
  | cons r rs ih =>
      intro h
      rw [hasDupKeysAt, Bool.or_eq_false_iff] at h
      refine List.Pairwise.cons ?_ (ih h.2)
      intro b hb hc
      have : rs.any (fun s => valAt s j == valAt r j) = true :=
        List.any_eq_true.mpr ⟨b, hb, beq_iff_eq.mpr hc.symm⟩
      rw [h.1] at this
      exact Bool.false_ne_true this

theorem hasDupKeysAt_of_not_pairwise (j : Nat) :
    ∀ rows : List Row,
    ¬ List.Pairwise (fun a b => valAt a j ≠ valAt b j) rows →
    hasDupKeysAt j rows = true := by
  intro rows h
  by_contra hc
  exact h (pairwise_of_not_hasDupKeysAt j rows (Bool.not_eq_true _ ▸ Bool.of_not_eq_true hc))

theorem set_valAt_self : ∀ (r : Row) (j : Nat), r.set j (valAt r j) = r := by
  intro r
  induction r with
  | nil => intro j; rfl
  | cons a r ih =>
      intro j
      cases j with
      | zero => rfl
      | succ j => exact congrArg (a :: ·) (ih j)

theorem toRowid_num_int (n : Int) : toRowid (Value.num ((n : ℤ) : ℚ)) = some (some n) := by
  simp only [toRowid]
  rw [if_pos (Rat.den_intCast n), Rat.num_intCast]

theorem insertRowsPK_ok (j : Nat) :
    ∀ (rows : List Row) (used : List Int),
    (∀ r ∈ rows, ∃ n : Int, valAt r j = Value.num ((n : ℤ) : ℚ) ∧ n ∉ used) →
    List.Pairwise (fun a b => valAt a j ≠ valAt b j) rows →
    insertRowsPK j used rows = Except.ok rows := by
  intro rows
  induction rows with
  | nil => intro used _ _; rfl
  | cons r rs ih =>
      intro used hall hp
      obtain ⟨n, hv, hnu⟩ := hall r (List.mem_cons_self _ _)
      have hrid : toRowid (valAt r j) = some (some n) := by
        rw [hv]; exact toRowid_num_int n
      have hrec : insertRowsPK j (n :: used) rs = Except.ok rs := by
        refine ih (n :: used) ?_ (List.pairwise_cons.mp hp).2
        intro x hx
        obtain ⟨m, hvm, hmu⟩ := hall x (List.mem_cons_of_mem _ hx)
        refine ⟨m, hvm, ?_⟩
        rw [List.mem_cons]
        rintro (hc | hc)
        · exact (List.pairwise_cons.mp hp).1 x hx (by rw [hv, hvm, hc])
        · exact hmu hc
      simp only [insertRowsPK, hrid, if_neg hnu, hrec]
      rw [← hv, set_valAt_self]
      rfl

theorem insertRowsPK_error (j : Nat) :
    ∀ (rows : List Row) (used : List Int),
    (∀ r ∈ rows, ∃ n : Int, valAt r j = Value.num ((n : ℤ) : ℚ)) →
    ((∃ r ∈ rows, ∃ n : Int, valAt r j = Value.num ((n : ℤ) : ℚ) ∧ n ∈ used) ∨
      ¬ List.Pairwise (fun a b => valAt a j ≠ valAt b j) rows) →
    insertRowsPK j used rows = Except.error DwError.integrityError := by
  intro rows
  induction rows with
  | nil =>
      intro used _ h
      rcases h with ⟨r, hr, _⟩ | h
      · exact absurd hr (List.not_mem_nil r)
      · exact absurd List.Pairwise.nil h
  | cons r rs ih =>
      intro used hall h
      obtain ⟨n, hv⟩ := hall r (List.mem_cons_self _ _)
      have hrid : toRowid (valAt r j) = some (some n) := by
        rw [hv]; exact toRowid_num_int n
      by_cases hmem : n ∈ used
      · simp only [insertRowsPK, hrid, if_pos hmem]
      · have hrec : insertRowsPK j (n :: used) rs = Except.error DwError.integrityError := by
          refine ih (n :: used) (fun x hx => hall x (List.mem_cons_of_mem _ hx)) ?_
          rcases h with ⟨x, hx, m, hvm, hmu⟩ | h
          · rcases List.mem_cons.mp hx with rfl | hx'
            · rw [hv] at hvm
              rw [Int.cast_injective (Value.num.inj hvm).symm] at hmu
              exact absurd hmu hmem
            · exact Or.inl ⟨x, hx', m, hvm, List.mem_cons_of_mem _ hmu⟩
          · rw [List.pairwise_cons] at h
            push_neg at h
            rcases Classical.em (∀ x ∈ rs, valAt r j ≠ valAt x j) with hallx | hnall
            · exact Or.inr (fun hp => h hallx hp)
            · push_neg at hnall
              obtain ⟨x, hx, hxx⟩ := hnall
              obtain ⟨m, hvm⟩ := hall x (List.mem_cons_of_mem _ hx)
              refine Or.inl ⟨x, hx, m, hvm, ?_⟩
              rw [hxx, hvm] at hv
              rw [Int.cast_injective (Value.num.inj hv)]
              exact List.mem_cons_self _ _
        simp only [insertRowsPK, hrid, if_neg hmem, hrec]
        rfl

theorem valAt_set_self : ∀ (r : Row) (j : Nat), j < r.length → ∀ v, valAt (r.set j v) j = v := by
  intro r
  induction r with
  | nil => intro j h; exact absurd h (Nat.not_lt_zero j)
  | cons a r ih =>
      intro j h v
      cases j with
      | zero => rfl
      | succ j => exact ih j (Nat.lt_of_succ_lt_succ h) v

theorem valAt_set_ne (v : Value) : ∀ (r : Row) (i j : Nat), i ≠ j →
    valAt (r.set j v) i = valAt r i := by
  intro r
  induction r with
  | nil => intro i j _; rfl
  | cons a r ih =>
      intro i j hne
      cases j with
      | zero =>
          cases i with
          | zero => exact absurd rfl hne
          | succ i => rfl
      | succ j =>
          cases i with
          | zero => rfl
          | succ i => exact ih i j (fun hc => hne (congrArg Nat.succ hc))

theorem valAt_append_left : ∀ (r t : Row) (j : Nat), j < r.length →
    valAt (r ++ t) j = valAt r j := by
  intro r
  induction r with
  | nil => intro t j h; exact absurd h (Nat.not_lt_zero j)
  | cons a r ih =>
      intro t j h
      cases j with
      | zero => rfl
      | succ j => exact ih t j (Nat.lt_of_succ_lt_succ h)

theorem valAt_append_self : ∀ (r : Row) (v : Value), valAt (r ++ [v]) r.length = v := by
  intro r
  induction r with
  | nil => intro v; rfl
  | cons a r ih => intro v; exact ih v

theorem map_valAt_zip_append (n : Nat) :
    ∀ (rows : List Row) (vals : List Value),
    (∀ r ∈ rows, r.length = n) → vals.length = rows.length →
    ((rows.zip vals).map (fun p => p.1 ++ [p.2])).map (fun r => valAt r n) = vals := by
  intro rows
  induction rows with
  | nil =>
      intro vals _ hlen
      rw [List.length_nil, List.length_eq_zero] at hlen
      rw [hlen]; rfl
  | cons r rs ih =>
      intro vals hwf hlen
      cases vals with
      | nil => exact absurd hlen.symm (by simp)
      | cons v vs =>
          simp only [List.zip_cons_cons, List.map_cons]
          have hself := valAt_append_self r v
          rw [hwf r (List.mem_cons_self _ _)] at hself
          rw [hself]
          refine congrArg (v :: ·) (ih vs ?_ ?_)
          · exact fun x hx => hwf x (List.mem_cons_of_mem _ hx)
          · exact Nat.succ_injective hlen

theorem map_valAt_zip_append_lt (n j : Nat) (hj : j < n) :
    ∀ (rows : List Row) (vals : List Value),
    (∀ r ∈ rows, r.length = n) → vals.length = rows.length →
    ((rows.zip vals).map (fun p => p.1 ++ [p.2])).map (fun r => valAt r j) =
      rows.map (fun r => valAt r j) := by
  intro rows
  induction rows with
  | nil => intro vals _ _; rfl
  | cons r rs ih =>
      intro vals hwf hlen
      cases vals with
      | nil => exact absurd hlen.symm (by simp)
      | cons v vs =>
          simp only [List.zip_cons_cons, List.map_cons]
          rw [valAt_append_left r [v] j (by rw [hwf r (List.mem_cons_self _ _)]; exact hj)]
          refine congrArg (valAt r j :: ·) (ih vs ?_ ?_)
          · exact fun x hx => hwf x (List.mem_cons_of_mem _ hx)
          · exact Nat.succ_injective hlen

theorem map_valAt_zip_set (n j : Nat) (hj : j < n) :
    ∀ (rows : List Row) (vals : List Value),
    (∀ r ∈ rows, r.length = n) → vals.length = rows.length →
    ((rows.zip vals).map (fun p => p.1.set j p.2)).map (fun r => valAt r j) = vals := by
  intro rows
  induction rows with
  | nil =>
      intro vals _ hlen
      rw [List.length_nil, List.length_eq_zero] at hlen
      rw [hlen]; rfl
  | cons r rs ih =>
      intro vals hwf hlen
      cases vals with
      | nil => exact absurd hlen.symm (by simp)
      | cons v vs =>
          simp only [List.zip_cons_cons, List.map_cons]
          rw [valAt_set_self r j (by rw [hwf r (List.mem_cons_self _ _)]; exact hj)]
          refine congrArg (v :: ·) (ih vs ?_ ?_)
          · exact fun x hx => hwf x (List.mem_cons_of_mem _ hx)
          · exact Nat.succ_injective hlen

theorem map_valAt_zip_set_ne (j i : Nat) (hne : i ≠ j) :
    ∀ (rows : List Row) (vals : List Value), vals.length = rows.length →
    ((rows.zip vals).map (fun p => p.1.set j p.2)).map (fun r => valAt r i) =
      rows.map (fun r => valAt r i) := by
  intro rows
  induction rows with
  | nil => intro vals _; rfl
  | cons r rs ih =>
      intro vals hlen
      cases vals with
      | nil => exact absurd hlen.symm (by simp)
      | cons v vs =>
          simp only [List.zip_cons_cons, List.map_cons]
          rw [valAt_set_ne v r i j hne]
          exact congrArg (valAt r i :: ·) (ih vs (Nat.succ_injective hlen))

theorem indexOf_inj_of_mem {a b : String} {l : List String}
    (ha : a ∈ l) (hb : b ∈ l) (h : l.indexOf a = l.indexOf b) : a = b := by
  have h1 : l.get ⟨l.indexOf a, List.indexOf_lt_length.mpr ha⟩ = a := List.indexOf_get _
  have h2 : l.get ⟨l.indexOf b, List.indexOf_lt_length.mpr hb⟩ = b := List.indexOf_get _
  rw [← h1, ← h2]
  congr 1
  exact Fin.ext h

/-!
Claim theorems.
-/

/-- C9: calling handle_missing_data with drop unset (the default false) and
fill_value unset (None) is a no-op: the Record Set is returned unchanged,
nulls included. -/
theorem claim9_defaults_noop (df : DataFrame) :
    handle_missing_data false none df = df := rfl

/-- C10: on a Record Set whose named column holds numeric values, both
string-formatting operations surface the pandas AttributeError — an error
distinct from every column-not-found error — and leave the frame unchanged. -/
theorem claim10_attribute_error :
    format_column_strings_to_lower_and_trim "age" dfNameAge
        = (some ScrubError.attributeError, dfNameAge) ∧
    format_column_strings_to_upper_and_trim "age" dfNameAge
        = (some ScrubError.attributeError, dfNameAge) ∧
    ∀ c : String, ScrubError.attributeError ≠ ScrubError.columnNotFound c := by
  refine ⟨by decide, by decide, ?_⟩
  intro c h
  exact ScrubError.noConfusion h

/-- C8: remove_duplicate_records is idempotent, and its rows are exactly
those of the input that do not duplicate an earlier row (first occurrence
kept, order preserved — the result is a sublist of the input). -/
theorem claim8_remove_duplicates (df : DataFrame) :
    remove_duplicate_records (remove_duplicate_records df) = remove_duplicate_records df ∧
    (remove_duplicate_records df).rows = keepFirstSpecBy id df.rows ∧
    (remove_duplicate_records df).rows.Sublist df.rows ∧
    (remove_duplicate_records df).cols = df.cols := by
  refine ⟨?_, ?_, ?_, rfl⟩
  · simp only [remove_duplicate_records]
    rw [dropDuplicatesBy_idem]
  · simp only [remove_duplicate_records]
    exact dropDuplicatesBy_eq_spec id df.rows
  · simp only [remove_duplicate_records]
    exact keepFirstByAux_sublist id df.rows []

/-- C3 counterexample: with drop set and fill_value supplied, the code does
not remove only the fully-empty rows and fill the remaining nulls — on a
frame with a partially-null row it drops that row and fills nothing. -/
theorem claim3_counterexample :
    handle_missing_data true (some (Value.num 0)) dfMiss ≠
      ⟨dfMiss.cols,
       (dfMiss.rows.filter (fun r => !(r.all (fun v => v == Value.null)))).map
         (List.map (fun x => if x == Value.null then Value.num 0 else x))⟩ := by
  decide

/-- C3 (amended): when drop is set, every row containing at least one null
is removed and fill_value is ignored entirely; when drop is unset and
fill_value is supplied, every null in every column is replaced by it. -/
theorem claim3_missing_data_policy (df : DataFrame) (fv : Option Value) (v : Value) :
    (handle_missing_data true fv df).rows
        = df.rows.filter (fun r => !(r.any (fun x => x == Value.null))) ∧
    (∀ r ∈ (handle_missing_data true fv df).rows, Value.null ∉ r) ∧
    (handle_missing_data true fv df).rows.Sublist df.rows ∧
    handle_missing_data true fv df = handle_missing_data true none df ∧
    (handle_missing_data false (some v) df).rows
        = df.rows.map (List.map (fun x => if x == Value.null then v else x)) := by
  refine ⟨rfl, ?_, ?_, rfl, rfl⟩
  · intro r hr hnull
    simp only [handle_missing_data, if_true] at hr
    have h2 := (List.mem_filter.mp hr).2
    rw [Bool.not_eq_true'] at h2
    have : r.any (fun x => x == Value.null) = true :=
      List.any_eq_true.mpr ⟨Value.null, hnull, beq_iff_eq.mpr rfl⟩
    rw [h2] at this
    exact Bool.false_ne_true this
  · simp only [handle_missing_data, if_true]
    exact List.filter_sublist df.rows

/-- C2 counterexample: on a concrete numeric column every domain pipeline's
remove_outliers keeps exactly the IQR-bounded rows, which differs from what
the fixed 1st/99th-percentile convention would keep — so no domain uses the
fixed-quantile convention. -/
theorem claim2_counterexample :
    customers_remove_outliers dfNum5
        = ⟨["x"], [[Value.num 1], [Value.num 2], [Value.num 3], [Value.num 4]]⟩ ∧
    products_remove_outliers dfNum5
        = ⟨["x"], [[Value.num 1], [Value.num 2], [Value.num 3], [Value.num 4]]⟩ ∧
    sales_remove_outliers dfNum5
        = ⟨["x"], [[Value.num 1], [Value.num 2], [Value.num 3], [Value.num 4]]⟩ ∧
    specQuantileTrim dfNum5
        = ⟨["x"], [[Value.num 2], [Value.num 3], [Value.num 4]]⟩ ∧
    specQuantileTrim dfNum5
        ≠ ⟨["x"], [[Value.num 1], [Value.num 2], [Value.num 3], [Value.num 4]]⟩ := by
  have hn : numericIdxList dfNum5 = [0] := by decide
  have hpass : iqrPass dfNum5 0
      = ⟨["x"], [[Value.num 1], [Value.num 2], [Value.num 3], [Value.num 4]]⟩ := by
    norm_num [iqrPass, quantileLinear, columnNums, dfNum5, valAt, sortLe, insertLe,
      inBoundsB, List.filterMap_cons, List.foldr_cons, List.foldr_nil,
      List.filter_cons, List.filter_nil, List.getElem_cons_succ,
      List.getElem_cons_zero, show ((0 : ℤ)).toNat = 0 from rfl,
      show ((1 : ℤ)).toNat = 1 from rfl, show ((3 : ℤ)).toNat = 3 from rfl]
  have hqpass : quantilePass dfNum5 0
      = ⟨["x"], [[Value.num 2], [Value.num 3], [Value.num 4]]⟩ := by
    norm_num [quantilePass, quantileLinear, columnNums, dfNum5, valAt, sortLe, insertLe,
      inBoundsB, List.filterMap_cons, List.foldr_cons, List.foldr_nil,
      List.filter_cons, List.filter_nil, List.getElem_cons_succ,
      List.getElem_cons_zero, show ((0 : ℤ)).toNat = 0 from rfl,
      show ((1 : ℤ)).toNat = 1 from rfl, show ((3 : ℤ)).toNat = 3 from rfl]
  have hc : customers_remove_outliers dfNum5
      = ⟨["x"], [[Value.num 1], [Value.num 2], [Value.num 3], [Value.num 4]]⟩ := by
    simp only [customers_remove_outliers, hn, List.isEmpty_cons, List.foldl_cons,
      List.foldl_nil, Bool.false_eq_true, if_false, hpass]
  have hq : specQuantileTrim dfNum5
      = ⟨["x"], [[Value.num 2], [Value.num 3], [Value.num 4]]⟩ := by
    simp only [specQuantileTrim, hn, List.foldl_cons, List.foldl_nil, hqpass]
  refine ⟨hc, hc, hc, hq, ?_⟩
  rw [hq]
  intro h
  have := congrArg (fun d => d.rows.length) h
  simp at this

/-- C2 (amended): the outlier-trimming step is the same IQR-based
transformation in all three domain pipelines; no pipeline selects a
fixed-quantile convention. -/
theorem claim2_single_convention (df : DataFrame) :
    products_remove_outliers df = customers_remove_outliers df ∧
    sales_remove_outliers df = customers_remove_outliers df :=
  ⟨rfl, rfl⟩

/-- C6: rename_columns, reorder_columns, both string-formatting operations
and filter_column_outliers each fail with a column-not-found error when a
referenced column is absent, and on that failure the Record Set is returned
completely unmodified (rename_columns checks every old name before renaming,
so it is atomic). -/
theorem claim6_missing_column_errors (df : DataFrame) :
    (∀ m : List (String × String), (∃ p ∈ m, p.1 ∉ df.cols) →
      ∃ c, c ∉ df.cols ∧ rename_columns m df = (some (ScrubError.columnNotFound c), df)) ∧
    (∀ cs : List String, (∃ c ∈ cs, c ∉ df.cols) →
      ∃ c, c ∉ df.cols ∧ reorder_columns cs df = (some (ScrubError.columnNotFound c), df)) ∧
    (∀ c, c ∉ df.cols →
      format_column_strings_to_lower_and_trim c df = (some (ScrubError.columnNotFound c), df)) ∧
    (∀ c, c ∉ df.cols →
      format_column_strings_to_upper_and_trim c df = (some (ScrubError.columnNotFound c), df)) ∧
    (∀ (c : String) (lo hi : ℚ), c ∉ df.cols →
      filter_column_outliers c lo hi df = (some (ScrubError.columnNotFound c), df)) := by
  refine ⟨?_, ?_, ?_, ?_, ?_⟩
  · intro m hm
    obtain ⟨p, hp, hnp⟩ := hm
    have hfind : (m.find? (fun p => decide (p.1 ∉ df.cols))).isSome = true :=
      List.find?_isSome.mpr ⟨p, hp, by simpa using hnp⟩
    obtain ⟨q, hq⟩ := Option.isSome_iff_exists.mp hfind
    refine ⟨q.1, by simpa using List.find?_some hq, ?_⟩
    simp only [rename_columns, hq]
  · intro cs hcs
    obtain ⟨c, hc, hnc⟩ := hcs
    have hfind : (cs.find? (fun c => decide (c ∉ df.cols))).isSome = true :=
      List.find?_isSome.mpr ⟨c, hc, by simpa using hnc⟩
    obtain ⟨q, hq⟩ := Option.isSome_iff_exists.mp hfind
    refine ⟨q, by simpa using List.find?_some hq, ?_⟩
    simp only [reorder_columns, hq]
  · intro c hc
    simp only [format_column_strings_to_lower_and_trim, if_neg hc]
  · intro c hc
    simp only [format_column_strings_to_upper_and_trim, if_neg hc]
  · intro c lo hi hc
    simp only [filter_column_outliers, if_neg hc]

/-- C6 witness: each operation applied to a concrete one-column frame with a
missing column name fails with the column-not-found error and leaves the
frame untouched. -/
theorem claim6_missing_column_errors_witness :
    (∃ c, c ∉ dfOneCol.cols ∧
      rename_columns [("zz", "b")] dfOneCol = (some (ScrubError.columnNotFound c), dfOneCol)) ∧
    (∃ c, c ∉ dfOneCol.cols ∧
      reorder_columns ["zz"] dfOneCol = (some (ScrubError.columnNotFound c), dfOneCol)) ∧
    format_column_strings_to_lower_and_trim "zz" dfOneCol
        = (some (ScrubError.columnNotFound "zz"), dfOneCol) ∧
    format_column_strings_to_upper_and_trim "zz" dfOneCol
        = (some (ScrubError.columnNotFound "zz"), dfOneCol) ∧
    filter_column_outliers "zz" 0 1 dfOneCol
        = (some (ScrubError.columnNotFound "zz"), dfOneCol) :=
  ⟨(claim6_missing_column_errors dfOneCol).1 [("zz", "b")]
      ⟨("zz", "b"), by decide, by decide⟩,
   (claim6_missing_column_errors dfOneCol).2.1 ["zz"] ⟨"zz", by decide, by decide⟩,
   (claim6_missing_column_errors dfOneCol).2.2.1 "zz" (by decide),
   (claim6_missing_column_errors dfOneCol).2.2.2.1 "zz" (by decide),
   (claim6_missing_column_errors dfOneCol).2.2.2.2 "zz" 0 1 (by decide)⟩

/-- C7 counterexample: on a Record Set whose column holds a text value, the
filter does not retain/drop rows by bounds — it surfaces the pandas
TypeError and leaves the frame unchanged, so the universally stated claim
fails for text columns. -/
theorem claim7_counterexample :
    filter_column_outliers "a" 0 1 dfTextCell = (some ScrubError.typeError, dfTextCell) ∧
    filter_column_outliers "a" 0 1 dfTextCell ≠ (none, ⟨["a"], []⟩) := by
  refine ⟨by decide, by decide⟩

/-- C7 (amended): on a Record Set containing the column whose values in that
column are all numeric or null, filter_column_outliers succeeds and retains
exactly the rows whose value lies within the inclusive bounds; null-valued
rows are removed, the retained rows keep their relative order and all their
other columns' values (each retained row is one of the original rows). -/
theorem claim7_filter_bounds (df : DataFrame) (c : String) (lo hi : ℚ)
    (hc : c ∈ df.cols)
    (hok : ∀ r ∈ df.rows, numCompOk (valAt r (df.cols.indexOf c)) = true) :
    filter_column_outliers c lo hi df =
      (none, ⟨df.cols,
        df.rows.filter (fun r => inBoundsB (valAt r (df.cols.indexOf c)) lo hi)⟩) ∧
    (filter_column_outliers c lo hi df).2.rows.Sublist df.rows ∧
    (∀ r ∈ (filter_column_outliers c lo hi df).2.rows,
      ∃ q, valAt r (df.cols.indexOf c) = Value.num q ∧ lo ≤ q ∧ q ≤ hi) ∧
    (∀ r ∈ df.rows,
      (∃ q, valAt r (df.cols.indexOf c) = Value.num q ∧ lo ≤ q ∧ q ≤ hi) →
      r ∈ (filter_column_outliers c lo hi df).2.rows) := by
  have hall : df.rows.all (fun r => numCompOk (valAt r (df.cols.indexOf c))) = true :=
    List.all_eq_true.mpr hok
  have heq : filter_column_outliers c lo hi df =
      (none, ⟨df.cols,
        df.rows.filter (fun r => inBoundsB (valAt r (df.cols.indexOf c)) lo hi)⟩) := by
    simp only [filter_column_outliers, if_pos hc, hall, if_true]
  refine ⟨heq, ?_, ?_, ?_⟩
  · rw [heq]
    exact List.filter_sublist df.rows
  · intro r hr
    rw [heq] at hr
    have h2 := (List.mem_filter.mp hr).2
    cases hv : valAt r (df.cols.indexOf c) with
    | num q =>
        rw [hv] at h2
        simp only [inBoundsB, Bool.and_eq_true, decide_eq_true_eq] at h2
        exact ⟨q, rfl, h2.1, h2.2⟩
    | null => rw [hv] at h2; simp [inBoundsB] at h2
    | str s => rw [hv] at h2; simp [inBoundsB] at h2
    | date d => rw [hv] at h2; simp [inBoundsB] at h2
  · intro r hr hq
    obtain ⟨q, hv, h1, h2⟩ := hq
    rw [heq]
    refine List.mem_filter.mpr ⟨hr, ?_⟩
    rw [hv]
    simp only [inBoundsB, Bool.and_eq_true, decide_eq_true_eq]
    exact ⟨h1, h2⟩

/-- C7 witness: on a concrete frame with values 5, null and 50 in the
filtered column and bounds [0, 10], the filter keeps exactly the first row
(with its other column intact), drops the null row and drops 50. -/
theorem claim7_filter_bounds_witness :
    filter_column_outliers "a" 0 10 dfFilterW =
      (none, ⟨dfFilterW.cols,
        dfFilterW.rows.filter
          (fun r => inBoundsB (valAt r (dfFilterW.cols.indexOf "a")) 0 10)⟩) ∧
    (filter_column_outliers "a" 0 10 dfFilterW).2.rows.Sublist dfFilterW.rows ∧
    (∀ r ∈ (filter_column_outliers "a" 0 10 dfFilterW).2.rows,
      ∃ q, valAt r (dfFilterW.cols.indexOf "a") = Value.num q ∧ 0 ≤ q ∧ q ≤ 10) ∧
    (∀ r ∈ dfFilterW.rows,
      (∃ q, valAt r (dfFilterW.cols.indexOf "a") = Value.num q ∧ 0 ≤ q ∧ q ≤ 10) →
      r ∈ (filter_column_outliers "a" 0 10 dfFilterW).2.rows) :=
  claim7_filter_bounds dfFilterW "a" 0 10 (by decide) (by decide)

/-- C4: for a numeric column's pass of the domain pipelines' IQR outlier
removal, when Q3 − Q1 > 0 every surviving row's value in that column lies in
[Q1 − 1.5·IQR, Q3 + 1.5·IQR] (and the pass only removes rows); when
Q3 − Q1 = 0 the pass leaves the frame — and so the row count — unchanged. -/
theorem claim4_iqr_pass_bounds (df : DataFrame) (j : Nat) (q1 q3 : ℚ)
    (h1 : quantileLinear (columnNums df j) (1/4) = some q1)
    (h3 : quantileLinear (columnNums df j) (3/4) = some q3) :
    (0 < q3 - q1 →
      (iqrPass df j).cols = df.cols ∧
      (iqrPass df j).rows.Sublist df.rows ∧
      ∀ r ∈ (iqrPass df j).rows, ∃ v, valAt r j = Value.num v ∧
        q1 - 3/2 * (q3 - q1) ≤ v ∧ v ≤ q3 + 3/2 * (q3 - q1)) ∧
    (q3 - q1 = 0 → iqrPass df j = df) := by
  have hunfold : iqrPass df j =
      (if q3 - q1 = 0 then df
       else ⟨df.cols, df.rows.filter (fun r =>
         inBoundsB (valAt r j) (q1 - 3/2 * (q3 - q1)) (q3 + 3/2 * (q3 - q1)))⟩) := by
    rw [iqrPass, h1, h3]
  constructor
  · intro hpos
    rw [hunfold, if_neg (by intro hz; rw [hz] at hpos; exact lt_irrefl 0 hpos)]
    refine ⟨rfl, List.filter_sublist _, ?_⟩
    intro r hr
    have h2 := (List.mem_filter.mp hr).2
    cases hv : valAt r j with
    | num q =>
        rw [hv] at h2
        simp only [inBoundsB, Bool.and_eq_true, decide_eq_true_eq] at h2
        exact ⟨q, rfl, h2.1, h2.2⟩
    | null => rw [hv] at h2; simp [inBoundsB] at h2
    | str s => rw [hv] at h2; simp [inBoundsB] at h2
    | date d => rw [hv] at h2; simp [inBoundsB] at h2
  · intro hz
    rw [hunfold, if_pos hz]

/-- C4 witness: on a concrete column with values 1, 2, 3, 4, 100, the
quantiles are Q1 = 2 and Q3 = 4, the IQR is positive, and the pass keeps
only rows with values in [−1, 7]. -/
theorem claim4_iqr_pass_bounds_witness :
    quantileLinear (columnNums dfIqrW 0) (1/4) = some 2 ∧
    quantileLinear (columnNums dfIqrW 0) (3/4) = some 4 ∧
    ((iqrPass dfIqrW 0).cols = dfIqrW.cols ∧
     (iqrPass dfIqrW 0).rows.Sublist dfIqrW.rows ∧
     ∀ r ∈ (iqrPass dfIqrW 0).rows, ∃ v, valAt r 0 = Value.num v ∧
       2 - 3/2 * (4 - 2) ≤ v ∧ v ≤ 4 + 3/2 * (4 - 2)) := by
  have h1 : quantileLinear (columnNums dfIqrW 0) (1/4) = some 2 := by
    norm_num [quantileLinear, columnNums, dfIqrW, valAt, sortLe, insertLe,
      List.filterMap_cons, List.foldr_cons, List.foldr_nil,
      show ((1 : ℤ)).toNat = 1 from rfl]
  have h3 : quantileLinear (columnNums dfIqrW 0) (3/4) = some 4 := by
    norm_num [quantileLinear, columnNums, dfIqrW, valAt, sortLe, insertLe,
      List.filterMap_cons, List.foldr_cons, List.foldr_nil,
      show ((3 : ℤ)).toNat = 3 from rfl]
  exact ⟨h1, h3,
    (claim4_iqr_pass_bounds dfIqrW 0 2 4 h1 h3).1 (by norm_num)⟩

/-- C5 counterexample: when the source column is itself named
StandardDateTime, the parsed result overwrites it, so the original source
column is not left unchanged (and no new column is added). -/
theorem claim5_counterexample :
    (parse_dates_to_add_standard_datetime "StandardDateTime" dfSdtSelf).2
        = ⟨["StandardDateTime"], [[Value.null]]⟩ ∧
    colValues (parse_dates_to_add_standard_datetime "StandardDateTime" dfSdtSelf).2
        "StandardDateTime" ≠ colValues dfSdtSelf "StandardDateTime" := by
  refine ⟨by decide, by decide⟩

/-- C5 (amended): for a Record Set containing the source column the parse
never fails — each source value is coerced (unparseable text becomes null)
into the fixed-name StandardDateTime column, which is overwritten if present
and appended otherwise; the source column is unchanged whenever it is not
itself named StandardDateTime; the column-not-found error is raised exactly
when the source column is absent. -/
theorem claim5_parse_dates (df : DataFrame) (c : String) (hwf : WF df) :
    (c ∈ df.cols →
      (parse_dates_to_add_standard_datetime c df).1 = none ∧
      colValues (parse_dates_to_add_standard_datetime c df).2 "StandardDateTime"
          = (colValues df c).map toDatetimeCoerce ∧
      (c ≠ "StandardDateTime" →
        colValues (parse_dates_to_add_standard_datetime c df).2 c = colValues df c) ∧
      "StandardDateTime" ∈ (parse_dates_to_add_standard_datetime c df).2.cols) ∧
    (c ∉ df.cols →
      parse_dates_to_add_standard_datetime c df = (some (ScrubError.columnNotFound c), df)) ∧
    (∀ s, parseIsoDate s = none → toDatetimeCoerce (Value.str s) = Value.null) := by
  refine ⟨?_, ?_, ?_⟩
  · intro hc
    have hres : parse_dates_to_add_standard_datetime c df =
        (none, setCol "StandardDateTime" ((colValues df c).map toDatetimeCoerce) df) := by
      simp only [parse_dates_to_add_standard_datetime, if_pos hc]
    have hlen : ((colValues df c).map toDatetimeCoerce).length = df.rows.length := by
      simp [colValues]
    rw [hres]
    by_cases hsdt : "StandardDateTime" ∈ df.cols
    · have hscol : setCol "StandardDateTime" ((colValues df c).map toDatetimeCoerce) df =
          ⟨df.cols, (df.rows.zip ((colValues df c).map toDatetimeCoerce)).map
            (fun p => p.1.set (df.cols.indexOf "StandardDateTime") p.2)⟩ := by
        simp only [setCol, if_pos hsdt]
      have hjlt : df.cols.indexOf "StandardDateTime" < df.cols.length :=
        List.indexOf_lt_length.mpr hsdt
      refine ⟨rfl, ?_, ?_, by rw [hscol]; exact hsdt⟩
      · rw [hscol, colValues]
        exact map_valAt_zip_set df.cols.length _ hjlt df.rows _ hwf hlen
      · intro hne
        rw [hscol, colValues, colValues]
        refine map_valAt_zip_set_ne _ _ ?_ df.rows _ hlen
        intro heq
        exact hne (indexOf_inj_of_mem hc hsdt heq)
    · have hscol : setCol "StandardDateTime" ((colValues df c).map toDatetimeCoerce) df =
          ⟨df.cols ++ ["StandardDateTime"],
           (df.rows.zip ((colValues df c).map toDatetimeCoerce)).map
             (fun p => p.1 ++ [p.2])⟩ := by
        simp only [setCol, if_neg hsdt]
      refine ⟨rfl, ?_, ?_, by rw [hscol]; exact List.mem_append_right _ (List.mem_singleton.mpr rfl)⟩
      · rw [hscol, colValues]
        have hidx : (df.cols ++ ["StandardDateTime"]).indexOf "StandardDateTime"
            = df.cols.length := by
          rw [List.indexOf_append_of_not_mem hsdt, List.indexOf_cons_self, Nat.add_zero]
        rw [hidx]
        exact map_valAt_zip_append df.cols.length df.rows _ hwf hlen
      · intro _
        rw [hscol, colValues, colValues]
        have hidx : (df.cols ++ ["StandardDateTime"]).indexOf c = df.cols.indexOf c :=
          List.indexOf_append_of_mem hc
        rw [hidx]
        exact map_valAt_zip_append_lt df.cols.length _ (List.indexOf_lt_length.mpr hc)
          df.rows _ hwf hlen
  · intro hc
    simp only [parse_dates_to_add_standard_datetime, if_neg hc]
  · intro s hs
    simp only [toDatetimeCoerce, hs]

/-- C5 witness: on the spec's example column ["2024-01-01", "not-a-date"]
the parse succeeds, yields a valid timestamp and a null in the new
StandardDateTime column, and leaves the source column unchanged. -/
theorem claim5_parse_dates_witness :
    (parse_dates_to_add_standard_datetime "order_date" dfDates).1 = none ∧
    colValues (parse_dates_to_add_standard_datetime "order_date" dfDates).2
        "StandardDateTime" = [Value.date 20240101, Value.null] ∧
    colValues (parse_dates_to_add_standard_datetime "order_date" dfDates).2
        "order_date" = colValues dfDates "order_date" := by
  obtain ⟨ha, hb, hc, _⟩ :=
    (claim5_parse_dates dfDates "order_date" (by simp only [WF]; decide)).1 (by decide)
  refine ⟨ha, ?_, hc (by decide)⟩
  rw [hb]
  decide

/-- C1 counterexample: load_dim_product has no dedup step, so a prepared
products file whose product_id values collide makes the PRIMARY KEY append
fail — duplicates abort the product load instead of being dropped and
counted. -/
theorem claim1_counterexample :
    load_dim_product_table dfProdDup = Except.error DwError.integrityError := by
  rfl

/-- C1 (amended): only dim_customer's loader deduplicates by primary key.
For prepared frames whose key column holds integer values throughout: the
loaded dim_customer table is exactly the keep-first-by-customer_id
selection of the prepared rows, holding at most one row per key, and the
customer load never aborts; dim_product's loader has no dedup step, so
duplicated product_id values abort the product load with the PRIMARY KEY
IntegrityError.  (SQLite auto-assigns fresh rowids to NULL keys and rejects
values with no lossless integer conversion with a datatype mismatch, so
the integer-key restriction delimits where the dedup contract applies.) -/
theorem claim1_dim_load (df : DataFrame) :
    (∀ d, prepCustomer df = Except.ok d →
      (∀ r ∈ d.rows, ∃ n : Int, valAt r 0 = Value.num ((n : ℤ) : ℚ)) →
      load_dim_customer_table df
          = Except.ok (keepFirstSpecBy (fun r => valAt r 0) d.rows) ∧
      List.Pairwise (fun a b => valAt a 0 ≠ valAt b 0)
        (keepFirstSpecBy (fun r => valAt r 0) d.rows) ∧
      (keepFirstSpecBy (fun r => valAt r 0) d.rows).Sublist d.rows) ∧
    (∀ d, prepProduct df = Except.ok d →
      (∀ r ∈ d.rows, ∃ n : Int, valAt r 0 = Value.num ((n : ℤ) : ℚ)) →
      ¬ List.Pairwise (fun a b => valAt a 0 ≠ valAt b 0) d.rows →
      load_dim_product_table df = Except.error DwError.integrityError) := by
  constructor
  · intro d hd hkeys
    have hload : load_dim_customer_table df =
        insertRowsPK 0 []
          (if hasDupKeysAt 0 d.rows then dropDuplicatesBy (fun r => valAt r 0) d.rows
           else d.rows) := by
      rw [load_dim_customer_table, hd]
      rfl
    by_cases hdup : hasDupKeysAt 0 d.rows
    · have hrows : (if hasDupKeysAt 0 d.rows
          then dropDuplicatesBy (fun r => valAt r 0) d.rows else d.rows)
          = dropDuplicatesBy (fun r => valAt r 0) d.rows := if_pos hdup
      have hspec := dropDuplicatesBy_eq_spec (fun r => valAt r 0) d.rows
      have hsub : (dropDuplicatesBy (fun r => valAt r 0) d.rows).Sublist d.rows :=
        keepFirstByAux_sublist _ d.rows []
      have hkeys2 : ∀ r ∈ dropDuplicatesBy (fun r => valAt r 0) d.rows,
          ∃ n : Int, valAt r 0 = Value.num ((n : ℤ) : ℚ) ∧ n ∉ ([] : List Int) := by
        intro r hr
        obtain ⟨n, hn⟩ := hkeys r (hsub.subset hr)
        exact ⟨n, hn, List.not_mem_nil n⟩
      refine ⟨?_, ?_, ?_⟩
      · rw [hload, hrows, ← hspec]
        exact insertRowsPK_ok 0 _ [] hkeys2 (pairwise_keepFirstByAux _ d.rows [])
      · rw [← hspec]
        exact pairwise_keepFirstByAux _ d.rows []
      · rw [← hspec]
        exact keepFirstByAux_sublist _ d.rows []
    · have hfalse : hasDupKeysAt 0 d.rows = false := Bool.eq_false_iff.mpr hdup
      have hpair := pairwise_of_not_hasDupKeysAt 0 d.rows hfalse
      have hrows : (if hasDupKeysAt 0 d.rows
          then dropDuplicatesBy (fun r => valAt r 0) d.rows else d.rows) = d.rows :=
        if_neg hdup
      have hspecid : keepFirstSpecBy (fun r => valAt r 0) d.rows = d.rows := by
        rw [← dropDuplicatesBy_eq_spec]
        exact keepFirstByAux_of_pairwise _ d.rows [] (fun x _ => List.not_mem_nil _) hpair
      have hkeys2 : ∀ r ∈ d.rows,
          ∃ n : Int, valAt r 0 = Value.num ((n : ℤ) : ℚ) ∧ n ∉ ([] : List Int) := by
        intro r hr
        obtain ⟨n, hn⟩ := hkeys r hr
        exact ⟨n, hn, List.not_mem_nil n⟩
      refine ⟨?_, ?_, ?_⟩
      · rw [hload, hrows]
        rw [hspecid]
        exact insertRowsPK_ok 0 d.rows [] hkeys2 hpair
      · rw [hspecid]
        exact hpair
      · rw [hspecid]
  · intro d hd hkeys hnp
    have hload : load_dim_product_table df = insertRowsPK 0 [] d.rows := by
      rw [load_dim_product_table, hd]
      rfl
    rw [hload]
    exact insertRowsPK_error 0 d.rows [] hkeys (Or.inr hnp)

/-- C1 witness: on the spec's example (customer ids 1, 1, 2 with differing
fields, all integer keys) the customer load succeeds with exactly two rows,
keyed 1 and 2, keeping the first-seen row for id 1; and on a products frame
with integer ids 1, 1 the product load aborts with the key-constraint
failure. -/
theorem claim1_dim_load_witness :
    (load_dim_customer_table dfCust112
        = Except.ok (keepFirstSpecBy (fun r => valAt r 0) dfCust112Prep.rows) ∧
     List.Pairwise (fun a b => valAt a 0 ≠ valAt b 0)
       (keepFirstSpecBy (fun r => valAt r 0) dfCust112Prep.rows) ∧
     (keepFirstSpecBy (fun r => valAt r 0) dfCust112Prep.rows).Sublist dfCust112Prep.rows) ∧
    keepFirstSpecBy (fun r => valAt r 0) dfCust112Prep.rows
        = [[Value.num 1, Value.str "A", Value.str "r1", Value.str "2020-01-01"],
           [Value.num 2, Value.str "C", Value.str "r1", Value.str "2020-01-03"]] ∧
    load_dim_product_table dfProdDup = Except.error DwError.integrityError := by
  have hcust : prepCustomer dfCust112 = Except.ok dfCust112Prep := by rfl
  have hprod : prepProduct dfProdDup = Except.ok dfProdDupPrep := by rfl
  have hkc : ∀ r ∈ dfCust112Prep.rows, ∃ n : Int, valAt r 0 = Value.num ((n : ℤ) : ℚ) := by
    intro r hr
    simp only [dfCust112Prep, dfCust112, List.mem_cons, List.not_mem_nil, or_false] at hr
    rcases hr with rfl | rfl | rfl
    · exact ⟨1, by norm_num [valAt]⟩
    · exact ⟨1, by norm_num [valAt]⟩
    · exact ⟨2, by norm_num [valAt]⟩
  have hkp : ∀ r ∈ dfProdDupPrep.rows, ∃ n : Int, valAt r 0 = Value.num ((n : ℤ) : ℚ) := by
    intro r hr
    simp only [dfProdDupPrep, dfProdDup, List.mem_cons, List.not_mem_nil, or_false] at hr
    rcases hr with rfl | rfl
    · exact ⟨1, by norm_num [valAt]⟩
    · exact ⟨1, by norm_num [valAt]⟩
  have hnp : ¬ List.Pairwise (fun a b => valAt a 0 ≠ valAt b 0) dfProdDupPrep.rows := by
    intro h
    exact (List.pairwise_cons.mp h).1
      [Value.num 1, Value.str "Q", Value.str "c", Value.num 6]
      (List.mem_cons_self _ _) (by decide)
  exact ⟨(claim1_dim_load dfCust112).1 dfCust112Prep hcust hkc, by decide,
    (claim1_dim_load dfProdDup).2 dfProdDupPrep hprod hkp hnp⟩

end SmartSales
